import Mathlib

/-!
# Verification of the Excel reconciliation tool (`app.py`)

Shallow embedding of the reconciliation web application.  The program reads
two Excel files with pandas, normalizes column names, validates that the
normalized columns `"awb number"` and `"weight"` exist, projects to those two
columns, performs a full outer merge on `"awb number"` with an indicator
column, computes `weight_diff = (weight_file1 - weight_file2).abs()` over the
whole merged frame, partitions the frame on the indicator into matching and
mismatching rows, and writes the two partitions to fixed file names in a
process-wide `processed` directory.  A separate route serves
`send_file(os.path.join(PROCESSED_FOLDER, filename))`.

Modelling choices, each mirroring a concrete pandas/Flask behaviour:

* A spreadsheet cell (`PdVal`) is a number (modelled as `ℚ`), the floating
  NaN value, or a string.  pandas fills the missing side of an outer join
  with NaN, so NaN is a first-class cell value, distinct from "absent".
* Arithmetic on cells follows pandas object/float column semantics:
  `num - num` is a number, any operand `nan` gives `nan`
  (null-propagation), and any string operand raises `TypeError`
  (strings have no `-` operator); a raised error aborts the whole
  column computation.
* `pd.read_excel` may fail (corrupt file); the two inputs of
  `compare_excel_files` are therefore `Except` values.
* The `except Exception` block of `compare_excel_files` turns every raised
  error into the 4-tuple `(None, None, None, None)`; we model the result as
  an `Option`.
* The artifact store (`processed` directory) is an association list from
  path to written table; `to_excel` overwrites an existing file at a path.
* `send_file` on a path that does not exist raises `FileNotFoundError`;
  the application installs no error handler, and Flask maps an uncaught
  non-HTTP exception to a generic 500 internal-server-error response,
  not to a 404.
-/

/-- A pandas cell value: a (finite) number, the floating NaN, or a string.
`ℚ` stands in for the numeric values; NaN is the value pandas uses both for
empty cells and to fill the missing side of an outer join. -/
inductive PdVal where
  | num (q : ℚ)
  | nan
  | str (s : String)
deriving DecidableEq, Repr

/-- A raw table as returned by `pd.read_excel`: named columns and rows of
cells, each row aligned with the column list. -/
structure RawTable where
  cols : List String
  rows : List (List PdVal)
deriving DecidableEq, Repr

/-- An ASCII whitespace character (the characters `str.strip()` removes
from the column names in play). -/
def isSpaceChar (c : Char) : Bool := c = ' ' ∨ c = '\t' ∨ c = '\n' ∨ c = '\r'

/-- Column-name normalization, `df.columns.str.strip().str.lower()`: drop
surrounding whitespace and lowercase, written directly over the character
sequence of the name. -/
def normCol (s : String) : String :=
  ⟨(((s.data.dropWhile isSpaceChar).reverse.dropWhile
      isSpaceChar).reverse).map Char.toLower⟩

/-- A projected record of `df[['awb number', 'weight']]`. -/
structure Rec where
  key : PdVal
  wt : PdVal
deriving DecidableEq, Repr

/-- The Python exceptions that `compare_excel_files` can raise internally. -/
inductive PyErr where
  | valueError (msg : String)
  /-- `TypeError` raised by `-` on a string operand in an object column. -/
  | typeError
  /-- `pd.read_excel` failed on the given file (1 or 2). -/
  | unreadable (file : Nat)
deriving DecidableEq, Repr

/-- The message of the `ValueError` raised when file `i` lacks a required
column (the literal string from the source). -/
def missingMsg (i : Nat) : String :=
  if i = 1 then
    "File 1 is missing required columns: 'AWB number' and/or 'Weight'."
  else
    "File 2 is missing required columns: 'AWB number' and/or 'Weight'."

/-- Normalize the column names of file `i`, check that `'awb number'` and
`'weight'` are both present (raising the file's `ValueError` otherwise), and
project each row to those two columns.  This is lines 46–58 of `app.py`
applied to one file. -/
def parseTable (i : Nat) (t : RawTable) : Except PyErr (List Rec) :=
  let cols := t.cols.map normCol
  if "awb number" ∈ cols ∧ "weight" ∈ cols then
    let ki := cols.indexOf "awb number"
    let wi := cols.indexOf "weight"
    .ok (t.rows.map (fun r => ⟨r.getD ki .nan, r.getD wi .nan⟩))
  else
    .error (.valueError (missingMsg i))

/-- The pandas `_merge` indicator column. -/
inductive Presence where
  | both
  | leftOnly
  | rightOnly
deriving DecidableEq, Repr

/-- A row of the merged frame before the diff column is added:
`awb number`, `weight_file1`, `weight_file2`, `_merge`.  The missing side of
an outer join is filled with `PdVal.nan`, exactly as pandas does. -/
structure MRow where
  key : PdVal
  w1 : PdVal
  w2 : PdVal
  pres : Presence
deriving DecidableEq, Repr

/-- `pd.merge(df1, df2, on='awb number', how='outer', indicator=True)`:
every pair of rows with equal keys produces one `both` row (many-to-many
cross product on duplicate keys); a left row with no key match on the right
produces one `left_only` row with NaN in `weight_file2`, and symmetrically
for the right.  Row order inside the result is irrelevant to every property
proved below (pandas sorts outer-join keys). -/
def merge (A B : List Rec) : List MRow :=
  (A.flatMap (fun a =>
    let ms := B.filter (fun b => b.key = a.key)
    if ms.isEmpty then [⟨a.key, a.wt, .nan, .leftOnly⟩]
    else ms.map (fun b => ⟨a.key, a.wt, b.wt, .both⟩)))
  ++ ((B.filter (fun b => ¬ A.any (fun a => a.key = b.key))).map
    (fun b => ⟨b.key, .nan, b.wt, .rightOnly⟩))

/-- Absolute value on the numeric cells (`Series.abs()`), written by the
sign of the numerator so that it evaluates on concrete inputs. -/
def ratAbs (q : ℚ) : ℚ := if q.num < 0 then -q else q

/-- One element of the column operation `(x - y).abs()`: numeric operands
subtract exactly, a NaN operand propagates NaN, and a string operand raises
`TypeError` (pandas object-column subtraction). -/
def subAbs : PdVal → PdVal → Except PyErr PdVal
  | .str _, _ => .error .typeError
  | _, .str _ => .error .typeError
  | .num a, .num b => .ok (.num (ratAbs (a - b)))
  | _, _ => .ok .nan

/-- A merged row with the `weight_diff` column. -/
structure DRow where
  key : PdVal
  w1 : PdVal
  w2 : PdVal
  pres : Presence
  diff : PdVal
deriving DecidableEq, Repr

/-- `merged_df['weight_diff'] = (merged_df['weight_file1'] -
merged_df['weight_file2']).abs()`: the element-wise column computation,
which raises (aborting the whole column) as soon as any element raises. -/
def addDiff : List MRow → Except PyErr (List DRow)
  | [] => .ok []
  | r :: rs => do
    let d ← subAbs r.w1 r.w2
    let ds ← addDiff rs
    pure (⟨r.key, r.w1, r.w2, r.pres, d⟩ :: ds)

/-- An output row after `.drop(columns=['_merge'])`. -/
structure ORow where
  key : PdVal
  w1 : PdVal
  w2 : PdVal
  diff : PdVal
deriving DecidableEq, Repr

/-- Drop the `_merge` column. -/
def dropMerge (r : DRow) : ORow := ⟨r.key, r.w1, r.w2, r.diff⟩

/-- `PROCESSED_FOLDER` from the source. -/
def PROCESSED_FOLDER : String := "processed"

/-- `os.path.join(a, b)` for a single join step: an absolute `b` (leading
separator) discards `a`; otherwise the parts are joined with `/` unless `a`
is empty or already ends with the separator. -/
def pathJoin (a b : String) : String :=
  if b.data.head? = some '/' then b
  else if a = "" then b
  else if a.data.getLast? = some '/' then a ++ b
  else a ++ "/" ++ b

/-- The fixed path of the matching-rows artifact. -/
def matchingPath : String := pathJoin PROCESSED_FOLDER "matching_awb_numbers.xlsx"

/-- The fixed path of the mismatching-rows artifact. -/
def mismatchingPath : String := pathJoin PROCESSED_FOLDER "mismatching_awb_numbers.xlsx"

/-- The filesystem under the process: an association list from path to the
table written there.  `to_excel` overwrites the entry at its path. -/
def Store := List (String × List ORow)

/-- Write (or overwrite) a file at `p`. -/
def storeWrite (s : Store) (p : String) (v : List ORow) : Store :=
  (p, v) :: (s.filter (fun e => e.1 ≠ p))

/-- Read the file at `p`, if present. -/
def storeRead (s : Store) (p : String) : Option (List ORow) :=
  (s.find? (fun e => e.1 = p)).map (·.2)

/-- The successful result of `compare_excel_files`: the two partitions and
the two artifact paths (the 4-tuple returned on line 76 of `app.py`). -/
structure CmpResult where
  matching : List ORow
  mismatching : List ORow
  matchingFile : String
  mismatchingFile : String
deriving DecidableEq, Repr

/-- The body of the `try` block of `compare_excel_files`, without the
filesystem writes: read both files, normalize/validate/project both, outer
merge, add the diff column, and split on the indicator. -/
def compareBody (r1 r2 : Except PyErr RawTable) : Except PyErr CmpResult := do
  let t1 ← r1
  let t2 ← r2
  let d1 ← parseTable 1 t1
  let d2 ← parseTable 2 t2
  let dm ← addDiff (merge d1 d2)
  let matching := (dm.filter (fun r => r.pres = .both)).map dropMerge
  let mismatching := (dm.filter (fun r => r.pres ≠ .both)).map dropMerge
  pure ⟨matching, mismatching, matchingPath, mismatchingPath⟩

/-- `compare_excel_files` with its `except` handler and its writes to the
processed directory: on success the two partitions are written to the two
fixed paths (both writes happen after every possible raise) and the 4-tuple
is returned; any raised error is caught, printed, and turned into
`(None, None, None, None)`, leaving the store untouched. -/
def compare_excel_files (store : Store) (r1 r2 : Except PyErr RawTable) :
    Option CmpResult × Store :=
  match compareBody r1 r2 with
  | .ok res =>
      (some res,
        storeWrite (storeWrite store res.matchingFile res.matching)
          res.mismatchingFile res.mismatching)
  | .error _ => (none, store)

/-- An HTTP response of the download route. -/
inductive HttpResp where
  | file (path : String)
  /-- A structured 404 response. -/
  | notFound
  /-- Flask's generic 500 response to an uncaught non-HTTP exception. -/
  | internalError
deriving DecidableEq, Repr

/-- Resolve one path component against a stack of components
(`..` pops, `.` and empty components vanish). -/
def resolveStep (acc : List String) (c : String) : List String :=
  if c = "" ∨ c = "." then acc
  else if c = ".." then acc.dropLast
  else acc ++ [c]

/-- Split a character sequence at `/`, accumulating the current component
in reverse. -/
def splitSlashAux : List Char → List Char → List (List Char)
  | [], acc => [acc.reverse]
  | c :: rest, acc =>
      if c = '/' then acc.reverse :: splitSlashAux rest []
      else splitSlashAux rest (c :: acc)

/-- Rejoin path components with `/`. -/
def joinSlash : List String → String
  | [] => ""
  | [x] => x
  | x :: xs => x ++ "/" ++ joinSlash xs

/-- Filesystem resolution of a relative path: split on `/` and collapse
`.` and `..` components, as the operating system does when opening the
path. -/
def resolvePath (p : String) : String :=
  joinSlash (((splitSlashAux p.data []).map (fun cs => String.mk cs)).foldl
    resolveStep [])

/-- `download_file(filename)`: `send_file(os.path.join(PROCESSED_FOLDER,
filename))`.  If the resolved path names an existing file it is served
(with no restriction on `filename`); otherwise `send_file` raises
`FileNotFoundError`, which no handler catches, so Flask answers with a
generic internal error, not a 404. -/
def download_file (files : List String) (filename : String) : HttpResp :=
  let path := resolvePath (pathJoin PROCESSED_FOLDER filename)
  if path ∈ files then .file path else .internalError

/-!
## Basic lemmas about the embedded operations
-/

/-- Forget the `weight_diff` column of a `DRow`. -/
def DRow.erase (d : DRow) : MRow := ⟨d.key, d.w1, d.w2, d.pres⟩

/-- Inversion of a successful diff-column computation: the underlying merged
rows are unchanged, and every output row's `diff` is the (successful)
element-wise `subAbs` of its two weights. -/
theorem addDiff_ok {rows : List MRow} {drows : List DRow}
    (h : addDiff rows = .ok drows) :
    drows.map DRow.erase = rows ∧
      ∀ d ∈ drows, subAbs d.w1 d.w2 = .ok d.diff := by
  induction rows generalizing drows with
  | nil =>
      simp only [addDiff] at h
      cases h
      simp
  | cons r rs ih =>
      simp only [addDiff, bind, Except.bind] at h
      cases hs : subAbs r.w1 r.w2 with
      | error e => rw [hs] at h; cases h
      | ok d =>
          rw [hs] at h
          cases ht : addDiff rs with
          | error e => rw [ht] at h; cases h
          | ok ds =>
              rw [ht] at h
              simp only [pure, Except.pure] at h
              cases h
              obtain ⟨h1, h2⟩ := ih ht
              refine ⟨by simp [DRow.erase, h1], ?_⟩
              intro x hx
              rcases List.mem_cons.mp hx with hx | hx
              · subst hx; exact hs
              · exact h2 x hx

/-- If some merged row's element-wise subtraction raises, the whole diff
column computation raises (pandas aborts the column operation). -/
theorem addDiff_error {rows : List MRow} {m : MRow} (hm : m ∈ rows)
    {e : PyErr} (he : subAbs m.w1 m.w2 = .error e) :
    ∃ e', addDiff rows = .error e' := by
  cases h : addDiff rows with
  | error e' => exact ⟨e', rfl⟩
  | ok drows =>
      obtain ⟨h1, h2⟩ := addDiff_ok h
      rw [← h1] at hm
      obtain ⟨d, hd, hdm⟩ := List.mem_map.mp hm
      have : subAbs d.w1 d.w2 = .ok d.diff := h2 d hd
      have hw1 : d.w1 = m.w1 := by rw [← hdm]; rfl
      have hw2 : d.w2 = m.w2 := by rw [← hdm]; rfl
      rw [hw1, hw2, he] at this
      cases this

/-- Number of rows of `l` carrying key `k`. -/
def countKey (l : List Rec) (k : PdVal) : ℕ := l.countP (fun r => r.key = k)

/-- Per-key cardinality of the left block of the outer merge: each left row
with key `k` contributes one row per matching right row, or a single
`left_only` row when there is no match. -/
theorem countKey_leftFlat (A B : List Rec) (k : PdVal) :
    ((A.flatMap (fun a =>
      let ms := B.filter (fun b => b.key = a.key)
      if ms.isEmpty then [MRow.mk a.key a.wt .nan .leftOnly]
      else ms.map (fun b => ⟨a.key, a.wt, b.wt, .both⟩))).countP
        (fun m => m.key = k)) =
    countKey A k * (if countKey B k = 0 then 1 else countKey B k) := by
  induction A with
  | nil => simp [countKey]
  | cons a A ih =>
      rw [List.flatMap_cons, List.countP_append, ih]
      by_cases hak : a.key = k
      · subst hak
        have hms : (B.filter (fun b => b.key = a.key)).length = countKey B a.key := by
          simp [countKey, List.countP_eq_length_filter]
        by_cases hb : countKey B a.key = 0
        · have : (B.filter (fun b => b.key = a.key)).isEmpty = true := by
            rw [List.isEmpty_iff_length_eq_zero, hms, hb]
          simp only [this, if_pos, hb, if_true]
          simp [countKey, List.countP_cons, hb]
          omega
        · have : ¬ (B.filter (fun b => b.key = a.key)).isEmpty = true := by
            rw [List.isEmpty_iff_length_eq_zero, hms]
            exact hb
          simp only [List.isEmpty_iff_length_eq_zero] at this
          simp only [List.isEmpty_iff_length_eq_zero, this, if_false, if_neg hb]
          rw [List.countP_map]
          have hcnt : (B.filter (fun b => b.key = a.key)).countP
              ((fun (m : MRow) => decide (m.key = a.key)) ∘
                (fun b => MRow.mk a.key a.wt b.wt .both)) =
              (B.filter (fun b => b.key = a.key)).length := by
            apply List.countP_eq_length.mpr
            intro x hx
            simp
          simp only [Function.comp] at hcnt ⊢
          rw [hcnt, hms]
          simp [countKey, List.countP_cons]
          ring
      · have branch0 : ((if (B.filter (fun b => b.key = a.key)).isEmpty then
            [MRow.mk a.key a.wt .nan .leftOnly]
          else (B.filter (fun b => b.key = a.key)).map
            (fun b => ⟨a.key, a.wt, b.wt, .both⟩)).countP
              (fun m => m.key = k)) = 0 := by
          split
          · simp [hak]
          · rw [List.countP_map]
            apply List.countP_eq_zero.mpr
            intro x hx
            simp [hak]
        rw [branch0]
        simp [countKey, List.countP_cons, hak]

/-- Per-key cardinality of the right block of the outer merge: right rows
with key `k` appear (once each) exactly when no left row carries key `k`. -/
theorem countKey_rightFilter (A B : List Rec) (k : PdVal) :
    (((B.filter (fun b => ¬ A.any (fun a => a.key = b.key))).map
      (fun b => MRow.mk b.key .nan b.wt .rightOnly)).countP
        (fun m => m.key = k)) =
    if countKey A k = 0 then countKey B k else 0 := by
  rw [List.countP_map, List.countP_filter]
  by_cases hA : countKey A k = 0
  · rw [if_pos hA]
    apply List.countP_congr
    intro b _
    simp only [Function.comp]
    by_cases hbk : b.key = k
    · have hforall : ∀ x ∈ A, ¬ x.key = k := by
        intro x hx hxk
        have : 0 < countKey A k := List.countP_pos_iff.mpr ⟨x, hx, by simp [hxk]⟩
        omega
      simp only [hbk]
      simp
      exact hforall
    · simp [hbk]
  · rw [if_neg hA]
    apply List.countP_eq_zero.mpr
    intro b _
    obtain ⟨a, ha, hak⟩ := List.countP_pos_iff.mp (Nat.pos_of_ne_zero hA)
    simp only [Function.comp]
    by_cases hbk : b.key = k
    · have hsome : A.any (fun x => x.key = b.key) = true :=
        List.any_eq_true.mpr ⟨a, ha, by simp [hbk, show a.key = k by simpa using hak]⟩
      simp [hsome]
    · simp [hbk]

/-- The relational outer-join multiplicity of key `k`: `|A_k| · |B_k|` when
the key occurs on both sides, `|A_k| + |B_k|` otherwise. -/
def joinCount (A B : List Rec) (k : PdVal) : ℕ :=
  if 0 < countKey A k ∧ 0 < countKey B k then countKey A k * countKey B k
  else countKey A k + countKey B k

/-- Per-key cardinality of the full outer merge is exactly the relational
outer-join multiplicity. -/
theorem countKey_merge (A B : List Rec) (k : PdVal) :
    (merge A B).countP (fun m => m.key = k) = joinCount A B k := by
  unfold merge joinCount
  rw [List.countP_append, countKey_leftFlat, countKey_rightFilter]
  rcases Nat.eq_zero_or_pos (countKey A k) with hA | hA <;>
    rcases Nat.eq_zero_or_pos (countKey B k) with hB | hB
  · simp [hA, hB]
  · simp [hA, hB.ne']
  · simp [hB, hA.ne']
  · simp [hA, hB, hA.ne', hB.ne']

/-- The key universe `keys(A) ∪ keys(B)`: the distinct keys appearing in
either dataset. -/
def keyUniverse (A B : List Rec) : List PdVal := ((A ++ B).map Rec.key).dedup

/-- The outer-join cardinality of the key universe: each distinct key
contributes its relational outer-join multiplicity. -/
def outerJoinCard (A B : List Rec) : ℕ :=
  ((keyUniverse A B).map (joinCount A B)).sum

theorem sum_map_add {α : Type} (S : List α) (f g : α → ℕ) :
    (S.map (fun k => f k + g k)).sum = (S.map f).sum + (S.map g).sum := by
  induction S with
  | nil => simp
  | cons s S ih => simp [ih]; omega

theorem sum_map_indicator {α : Type} [DecidableEq α] (S : List α) (x : α)
    (hN : S.Nodup) (hx : x ∈ S) :
    (S.map (fun k => if x = k then 1 else 0)).sum = 1 := by
  induction S with
  | nil => cases hx
  | cons s S ih =>
      have hns : s ∉ S := (List.nodup_cons.mp hN).1
      have hnS : S.Nodup := (List.nodup_cons.mp hN).2
      rcases List.mem_cons.mp hx with hxe | hxm
      · have hz : (S.map (fun k => if x = k then 1 else 0)).sum = 0 := by
          apply List.sum_eq_zero
          intro y hy
          obtain ⟨k, hk, hky⟩ := List.mem_map.mp hy
          have hxk : x ≠ k := by
            intro h
            rw [hxe] at h
            rw [← h] at hk
            exact hns hk
          rw [← hky, if_neg hxk]
        simp only [List.map_cons, List.sum_cons, hz, if_pos hxe]
      · have hxs : x ≠ s := by
          intro h
          rw [h] at hxm
          exact hns hxm
        simp only [List.map_cons, List.sum_cons, if_neg hxs]
        rw [ih hnS hxm]

/-- Counting rows key-by-key over any duplicate-free list of keys covering
the rows recovers the total number of rows. -/
theorem length_eq_sum_countKey (l : List MRow) (S : List PdVal)
    (hN : S.Nodup) (hcov : ∀ m ∈ l, m.key ∈ S) :
    (S.map (fun k => l.countP (fun m => m.key = k))).sum = l.length := by
  induction l with
  | nil => simp
  | cons m l ih =>
      have hrec : ∀ k, ((m :: l).countP (fun m' => m'.key = k)) =
          l.countP (fun m' => m'.key = k) + (if m.key = k then 1 else 0) := by
        intro k
        rw [List.countP_cons]
        by_cases h : m.key = k <;> simp [h]
      have : (S.map (fun k => (m :: l).countP (fun m' => m'.key = k))) =
          S.map (fun k => l.countP (fun m' => m'.key = k) +
            (if m.key = k then 1 else 0)) := by
        apply List.map_congr_left
        intro k _
        exact hrec k
      rw [this, sum_map_add,
        ih (fun x hx => hcov x (List.mem_cons_of_mem m hx)),
        sum_map_indicator S m.key hN (hcov m (List.mem_cons_self m l))]
      simp

/-- Every merged row's key comes from one of the two datasets. -/
theorem merge_key_mem (A B : List Rec) (m : MRow) (hm : m ∈ merge A B) :
    m.key ∈ keyUniverse A B := by
  unfold keyUniverse
  rw [List.mem_dedup]
  unfold merge at hm
  rcases List.mem_append.mp hm with hm | hm
  · obtain ⟨a, ha, hma⟩ := List.mem_flatMap.mp hm
    apply List.mem_map.mpr
    refine ⟨a, List.mem_append_left _ ha, ?_⟩
    simp only at hma
    split at hma
    · rcases List.mem_singleton.mp hma with rfl
      rfl
    · obtain ⟨b, _, hb⟩ := List.mem_map.mp hma
      rw [← hb]
  · obtain ⟨b, hb, hmb⟩ := List.mem_map.mp hm
    apply List.mem_map.mpr
    exact ⟨b, List.mem_append_right _ (List.mem_filter.mp hb).1, by rw [← hmb]⟩

/-- The length of the outer merge is exactly the outer-join cardinality of
the key universe. -/
theorem merge_length (A B : List Rec) :
    (merge A B).length = outerJoinCard A B := by
  unfold outerJoinCard
  rw [← length_eq_sum_countKey (merge A B) (keyUniverse A B)
    (List.nodup_dedup _) (merge_key_mem A B)]
  congr 1
  apply List.map_congr_left
  intro k _
  exact countKey_merge A B k

/-- Membership in the left block of the merge, unfolded: the row comes from
some A-row `a`, either as the lone `left_only` row (no key match in B) or as
a `both` row paired with a matching B-row. -/
theorem mem_leftFlat (A B : List Rec) (m : MRow)
    (hm : m ∈ A.flatMap (fun a =>
      let ms := B.filter (fun b => b.key = a.key)
      if ms.isEmpty then [MRow.mk a.key a.wt .nan .leftOnly]
      else ms.map (fun b => ⟨a.key, a.wt, b.wt, .both⟩))) :
    ∃ a ∈ A,
      ((B.filter (fun b => b.key = a.key)).isEmpty ∧
        m = ⟨a.key, a.wt, .nan, .leftOnly⟩) ∨
      (∃ b ∈ B, b.key = a.key ∧ m = ⟨a.key, a.wt, b.wt, .both⟩) := by
  obtain ⟨a, ha, hma⟩ := List.mem_flatMap.mp hm
  refine ⟨a, ha, ?_⟩
  simp only at hma
  by_cases hoe : (B.filter (fun b => b.key = a.key)).isEmpty
  · rw [if_pos hoe] at hma
    exact Or.inl ⟨hoe, List.mem_singleton.mp hma⟩
  · rw [if_neg hoe] at hma
    obtain ⟨b, hb, hmb⟩ := List.mem_map.mp hma
    have hbf := List.mem_filter.mp hb
    exact Or.inr ⟨b, hbf.1, by simpa using hbf.2, hmb.symm⟩

/-- Membership in the right block of the merge, unfolded: the row comes from
a B-row whose key matches no A-row. -/
theorem mem_rightMap (A B : List Rec) (m : MRow)
    (hm : m ∈ (B.filter (fun b => ¬ A.any (fun a => a.key = b.key))).map
      (fun b => MRow.mk b.key .nan b.wt .rightOnly)) :
    ∃ b ∈ B, (∀ a ∈ A, a.key ≠ b.key) ∧
      m = ⟨b.key, .nan, b.wt, .rightOnly⟩ := by
  obtain ⟨b, hb, hmb⟩ := List.mem_map.mp hm
  have hbf := List.mem_filter.mp hb
  refine ⟨b, hbf.1, ?_, hmb.symm⟩
  intro a ha hak
  have : ¬ (A.any (fun x => x.key = b.key) = true) := by simpa using hbf.2
  exact this (List.any_eq_true.mpr ⟨a, ha, by simpa using hak⟩)

/-- Provenance of a `both` row: it pairs one A-row with one B-row of the
same key, carrying their two weights. -/
theorem merge_both_src (A B : List Rec) (m : MRow) (hm : m ∈ merge A B)
    (hp : m.pres = .both) :
    ∃ a ∈ A, ∃ b ∈ B, a.key = m.key ∧ b.key = m.key ∧
      m.w1 = a.wt ∧ m.w2 = b.wt := by
  unfold merge at hm
  rcases List.mem_append.mp hm with hm | hm
  · obtain ⟨a, ha, hcase⟩ := mem_leftFlat A B m hm
    rcases hcase with ⟨_, rfl⟩ | ⟨b, hb, hbk, rfl⟩
    · cases hp
    · exact ⟨a, ha, b, hb, rfl, hbk, rfl, rfl⟩
  · obtain ⟨b, _, _, rfl⟩ := mem_rightMap A B m hm
    cases hp

/-- Provenance of a `left_only` row: it comes from an A-row whose key has no
match in B; its `weight_file2` is the NaN fill. -/
theorem merge_leftOnly_src (A B : List Rec) (m : MRow) (hm : m ∈ merge A B)
    (hp : m.pres = .leftOnly) :
    (∃ a ∈ A, a.key = m.key ∧ m.w1 = a.wt) ∧ m.w2 = .nan ∧
      ∀ b ∈ B, b.key ≠ m.key := by
  unfold merge at hm
  rcases List.mem_append.mp hm with hm | hm
  · obtain ⟨a, ha, hcase⟩ := mem_leftFlat A B m hm
    rcases hcase with ⟨hoe, rfl⟩ | ⟨b, hb, hbk, rfl⟩
    · refine ⟨⟨a, ha, rfl, rfl⟩, rfl, ?_⟩
      intro b hb hbk
      have : b ∈ B.filter (fun x => x.key = a.key) :=
        List.mem_filter.mpr ⟨hb, by simpa using hbk⟩
      rw [List.isEmpty_iff.mp hoe] at this
      cases this
    · cases hp
  · obtain ⟨b, _, _, rfl⟩ := mem_rightMap A B m hm
    cases hp

/-- Provenance of a `right_only` row: it comes from a B-row whose key has no
match in A; its `weight_file1` is the NaN fill. -/
theorem merge_rightOnly_src (A B : List Rec) (m : MRow) (hm : m ∈ merge A B)
    (hp : m.pres = .rightOnly) :
    (∃ b ∈ B, b.key = m.key ∧ m.w2 = b.wt) ∧ m.w1 = .nan ∧
      ∀ a ∈ A, a.key ≠ m.key := by
  unfold merge at hm
  rcases List.mem_append.mp hm with hm | hm
  · obtain ⟨a, ha, hcase⟩ := mem_leftFlat A B m hm
    rcases hcase with ⟨_, rfl⟩ | ⟨b, hb, hbk, rfl⟩ <;> cases hp
  · obtain ⟨b, hb, hnone, rfl⟩ := mem_rightMap A B m hm
    exact ⟨⟨b, hb, rfl, rfl⟩, rfl, hnone⟩

/-- Every A-row contributes at least one merged row carrying its weight on
the left. -/
theorem merge_left_total (A B : List Rec) (a : Rec) (ha : a ∈ A) :
    ∃ m ∈ merge A B, m.w1 = a.wt := by
  unfold merge
  by_cases hempty : (B.filter (fun b => b.key = a.key)).isEmpty
  · refine ⟨⟨a.key, a.wt, .nan, .leftOnly⟩, ?_, rfl⟩
    apply List.mem_append_left
    apply List.mem_flatMap.mpr
    refine ⟨a, ha, ?_⟩
    simp only [hempty, if_true]
    exact List.mem_singleton.mpr rfl
  · have hne : B.filter (fun b => b.key = a.key) ≠ [] := by
      intro hnil
      exact hempty (by rw [hnil]; rfl)
    obtain ⟨b, hb⟩ := List.exists_mem_of_ne_nil _ hne
    refine ⟨⟨a.key, a.wt, b.wt, .both⟩, ?_, rfl⟩
    apply List.mem_append_left
    apply List.mem_flatMap.mpr
    refine ⟨a, ha, ?_⟩
    simp only [hempty, if_false]
    exact List.mem_map.mpr ⟨b, hb, rfl⟩

/-- Every B-row contributes at least one merged row carrying its weight on
the right. -/
theorem merge_right_total (A B : List Rec) (b : Rec) (hb : b ∈ B) :
    ∃ m ∈ merge A B, m.w2 = b.wt := by
  unfold merge
  by_cases hany : A.any (fun a => a.key = b.key)
  · obtain ⟨a, ha, hak⟩ := List.any_eq_true.mp hany
    refine ⟨⟨a.key, a.wt, b.wt, .both⟩, ?_, rfl⟩
    apply List.mem_append_left
    apply List.mem_flatMap.mpr
    refine ⟨a, ha, ?_⟩
    have hbmem : b ∈ B.filter (fun x => x.key = a.key) :=
      List.mem_filter.mpr ⟨hb, by simpa using (by simpa using hak : a.key = b.key).symm⟩
    have hne : ¬ (B.filter (fun x => x.key = a.key)).isEmpty = true := by
      rw [List.isEmpty_iff]
      intro hnil
      rw [hnil] at hbmem
      cases hbmem
    simp only [hne, if_false]
    exact List.mem_map.mpr ⟨b, hbmem, rfl⟩
  · refine ⟨⟨b.key, .nan, b.wt, .rightOnly⟩, ?_, rfl⟩
    apply List.mem_append_right
    apply List.mem_map.mpr
    refine ⟨b, ?_, rfl⟩
    exact List.mem_filter.mpr ⟨hb, by simpa using hany⟩

/-- Splitting a list by a decidable predicate and its negation preserves
the total length. -/
theorem length_filter_partition {a : Type} (p : a → Prop) [DecidablePred p]
    (l : List a) :
    (l.filter (fun x => p x)).length +
      (l.filter (fun x => ¬ p x)).length = l.length := by
  induction l with
  | nil => rfl
  | cons x l ih =>
      simp only [decide_not] at ih ⊢
      by_cases h : p x <;>
        simp [List.filter_cons, h] <;> omega

theorem exbind_ok {e a b : Type} (x : a) (g : a → Except e b) :
    (Except.ok x : Except e a).bind g = g x := rfl

theorem exbind_err {e a b : Type} (x : e) (g : a → Except e b) :
    (Except.error x : Except e a).bind g = Except.error x := rfl

/-- Inversion of a successful run of the `try` body: both reads and both
parses succeeded, the diff column succeeded on the outer merge, and the
result is the indicator-split of the diffed merge together with the two
fixed artifact paths. -/
theorem compareBody_ok {r1 r2 : Except PyErr RawTable} {res : CmpResult}
    (h : compareBody r1 r2 = .ok res) :
    ∃ t1 t2 d1 d2 dm, r1 = .ok t1 ∧ r2 = .ok t2 ∧
      parseTable 1 t1 = .ok d1 ∧ parseTable 2 t2 = .ok d2 ∧
      addDiff (merge d1 d2) = .ok dm ∧
      res = ⟨(dm.filter (fun r => r.pres = .both)).map dropMerge,
        (dm.filter (fun r => ¬ r.pres = .both)).map dropMerge,
        matchingPath, mismatchingPath⟩ := by
  cases r1 with
  | error e => simp [compareBody, bind, Except.bind] at h
  | ok t1 =>
      cases r2 with
      | error e => simp [compareBody, bind, Except.bind] at h
      | ok t2 =>
          simp only [compareBody, bind] at h
          rw [exbind_ok, exbind_ok] at h
          cases h1 : parseTable 1 t1 with
          | error e => rw [h1, exbind_err] at h; cases h
          | ok d1 =>
              rw [h1, exbind_ok] at h
              cases h2 : parseTable 2 t2 with
              | error e => rw [h2, exbind_err] at h; cases h
              | ok d2 =>
                  rw [h2, exbind_ok] at h
                  cases hd : addDiff (merge d1 d2) with
                  | error e => rw [hd, exbind_err] at h; cases h
                  | ok dm =>
                      rw [hd, exbind_ok] at h
                      simp only [pure, Except.pure] at h
                      cases h
                      refine ⟨t1, t2, d1, d2, dm, rfl, rfl, h1, h2, hd, ?_⟩
                      simp [Ne]

/-!
## Concrete fixtures

Small spreadsheets used to instantiate the theorems (the scenario of the
specification, §8, plus variants). -/

/-- File 1 of the specification's scenario, with un-normalized column
names. -/
def exA : RawTable :=
  ⟨["AWB Number ", "Weight"], [[.str "100", .num 5], [.str "200", .num 3]]⟩

/-- File 2 of the specification's scenario, with an extra unrelated
column. -/
def exB : RawTable :=
  ⟨[" awb number", "weight", "extra"],
    [[.str "100", .num 5, .str "x"], [.str "300", .num 1, .str "y"]]⟩

/-- The dataset parsed from `exA`. -/
def exAd : List Rec := [⟨.str "100", .num 5⟩, ⟨.str "200", .num 3⟩]

/-- The dataset parsed from `exB`. -/
def exBd : List Rec := [⟨.str "100", .num 5⟩, ⟨.str "300", .num 1⟩]

/-- The comparison result on the scenario: key 100 matches with diff 0;
keys 200 and 300 are one-sided, with the NaN fill and a NaN diff. -/
def exRes : CmpResult :=
  ⟨[⟨.str "100", .num 5, .num 5, .num 0⟩],
    [⟨.str "200", .num 3, .nan, .nan⟩, ⟨.str "300", .nan, .num 1, .nan⟩],
    matchingPath, mismatchingPath⟩

instance exceptDecEq {e a : Type} [DecidableEq e] [DecidableEq a] :
    DecidableEq (Except e a)
  | .ok x, .ok y =>
      if h : x = y then .isTrue (by rw [h])
      else .isFalse (by intro hc; cases hc; exact h rfl)
  | .ok _, .error _ => .isFalse (by intro h; cases h)
  | .error _, .ok _ => .isFalse (by intro h; cases h)
  | .error x, .error y =>
      if h : x = y then .isTrue (by rw [h])
      else .isFalse (by intro hc; cases hc; exact h rfl)

theorem ratAbs_eq_abs (q : ℚ) : ratAbs q = |q| := by
  unfold ratAbs
  by_cases h : q.num < 0
  · rw [if_pos h, abs_of_neg]
    exact Rat.num_neg.mp h
  · rw [if_neg h, abs_of_nonneg]
    exact Rat.num_nonneg.mp (by omega)

theorem exA_parses : parseTable 1 exA = .ok exAd := by decide

theorem exB_parses : parseTable 2 exB = .ok exBd := by decide

theorem ex_compare : compareBody (.ok exA) (.ok exB) = .ok exRes := by
  have h55 : subAbs (.num 5) (.num 5) = .ok (.num 0) := by
    show Except.ok (PdVal.num (ratAbs (5 - 5))) = Except.ok (PdVal.num 0)
    norm_num [ratAbs]
  have hmerge : merge exAd exBd =
      [⟨.str "100", .num 5, .num 5, .both⟩,
        ⟨.str "200", .num 3, .nan, .leftOnly⟩,
        ⟨.str "300", .nan, .num 1, .rightOnly⟩] := by decide
  have hdiff : addDiff (merge exAd exBd) =
      .ok [⟨.str "100", .num 5, .num 5, .both, .num 0⟩,
        ⟨.str "200", .num 3, .nan, .leftOnly, .nan⟩,
        ⟨.str "300", .nan, .num 1, .rightOnly, .nan⟩] := by
    rw [hmerge]
    simp only [addDiff, bind]
    rw [show subAbs (PdVal.num 5) (PdVal.num 5) = .ok (.num 0) from h55]
    rfl
  simp only [compareBody, bind]
  rw [exbind_ok, exbind_ok, exA_parses, exbind_ok, exB_parses, exbind_ok,
    hdiff, exbind_ok]
  decide

/-!
## The claims
-/

/-- **C1.**  For every pair of successfully parsed datasets, the
reconciliation partitions the outer-join row set exactly: the per-key
multiplicity of the merged frame is the relational outer-join multiplicity
(every key-row combination of A or B appears exactly once), the number of
matched plus unmatched output rows equals the outer-join cardinality of the
key universe, and the two partitions are disjoint (no key, hence no row,
appears in both). -/
theorem C1_outer_join_partition (t1 t2 : RawTable) (d1 d2 : List Rec)
    (res : CmpResult)
    (h1 : parseTable 1 t1 = .ok d1) (h2 : parseTable 2 t2 = .ok d2)
    (h : compareBody (.ok t1) (.ok t2) = .ok res) :
    res.matching.length + res.mismatching.length = outerJoinCard d1 d2 ∧
    (∀ k, (merge d1 d2).countP (fun m => m.key = k) = joinCount d1 d2 k) ∧
    (∀ r ∈ res.matching, ∀ r' ∈ res.mismatching, r.key ≠ r'.key) := by
  obtain ⟨t1', t2', e1, e2, dm, ht1, ht2, hp1, hp2, hd, hres⟩ := compareBody_ok h
  cases ht1
  cases ht2
  rw [h1] at hp1
  cases hp1
  rw [h2] at hp2
  cases hp2
  have herase := addDiff_ok hd
  refine ⟨?_, fun k => countKey_merge d1 d2 k, ?_⟩
  · have hlen : dm.length = (merge d1 d2).length := by
      rw [← herase.1, List.length_map]
    rw [hres]
    simp only [List.length_map]
    rw [length_filter_partition (fun r => r.pres = Presence.both) dm, hlen,
      merge_length]
  · intro r hr r' hr'
    rw [hres] at hr hr'
    simp only at hr hr'
    obtain ⟨d, hdmem, hdr⟩ := List.mem_map.mp hr
    obtain ⟨d', hdmem', hdr'⟩ := List.mem_map.mp hr'
    have hdboth : d.pres = .both := by
      simpa using (List.mem_filter.mp hdmem).2
    have hdnot : ¬ d'.pres = .both := by
      simpa using (List.mem_filter.mp hdmem').2
    have hdm : d ∈ dm := (List.mem_filter.mp hdmem).1
    have hdm' : d' ∈ dm := (List.mem_filter.mp hdmem').1
    have hmm : DRow.erase d ∈ merge d1 d2 := by
      rw [← herase.1]
      exact List.mem_map_of_mem DRow.erase hdm
    have hmm' : DRow.erase d' ∈ merge d1 d2 := by
      rw [← herase.1]
      exact List.mem_map_of_mem DRow.erase hdm'
    obtain ⟨a, ha, b, hb, hak, hbk, _, _⟩ :=
      merge_both_src d1 d2 (DRow.erase d) hmm hdboth
    have hrkey : r.key = d.key := by rw [← hdr]; rfl
    have hrkey' : r'.key = d'.key := by rw [← hdr']; rfl
    intro hkk
    cases hpres' : (DRow.erase d').pres with
    | both => exact hdnot hpres'
    | leftOnly =>
        obtain ⟨_, _, hnb⟩ := merge_leftOnly_src d1 d2 (DRow.erase d') hmm' hpres'
        exact hnb b hb (by
          rw [show (DRow.erase d').key = d'.key from rfl, ← hrkey', ← hkk, hrkey]
          exact hbk)
    | rightOnly =>
        obtain ⟨_, _, hna⟩ := merge_rightOnly_src d1 d2 (DRow.erase d') hmm' hpres'
        exact hna a ha (by
          rw [show (DRow.erase d').key = d'.key from rfl, ← hrkey', ← hkk, hrkey]
          exact hak)

/-- Witness for C1: the specification's scenario instantiates the partition
theorem. -/
theorem C1_outer_join_partition_witness :
    exRes.matching.length + exRes.mismatching.length = outerJoinCard exAd exBd ∧
    (∀ k, (merge exAd exBd).countP (fun m => m.key = k) = joinCount exAd exBd k) ∧
    (∀ r ∈ exRes.matching, ∀ r' ∈ exRes.mismatching, r.key ≠ r'.key) :=
  C1_outer_join_partition exA exB exAd exBd exRes exA_parses exB_parses ex_compare

/-- **C2.**  Every row of the matched partition whose two weights are the
numbers `a` and `b` carries `diff = |a - b|` exactly. -/
theorem C2_matched_diff_exact (r1 r2 : Except PyErr RawTable)
    (res : CmpResult) (h : compareBody r1 r2 = .ok res) (r : ORow)
    (hr : r ∈ res.matching) (a b : ℚ) (ha : r.w1 = .num a)
    (hb : r.w2 = .num b) :
    r.diff = .num |a - b| := by
  obtain ⟨t1, t2, d1, d2, dm, _, _, _, _, hd, hres⟩ := compareBody_ok h
  rw [hres] at hr
  simp only at hr
  obtain ⟨d, hdmem, hdr⟩ := List.mem_map.mp hr
  have hsub := (addDiff_ok hd).2 d (List.mem_filter.mp hdmem).1
  have hw1 : d.w1 = r.w1 := by rw [← hdr]; rfl
  have hw2 : d.w2 = r.w2 := by rw [← hdr]; rfl
  have hdiff : d.diff = r.diff := by rw [← hdr]; rfl
  rw [hw1, ha, hw2, hb] at hsub
  simp only [subAbs] at hsub
  have : PdVal.num (ratAbs (a - b)) = d.diff := by
    injection hsub
  rw [← hdiff, ← this, ratAbs_eq_abs]

/-- Witness for C2: the matched row of the scenario has
`diff = |5 - 5| = 0`. -/
theorem C2_matched_diff_exact_witness :
    (⟨.str "100", .num 5, .num 5, .num 0⟩ : ORow).diff = .num |5 - 5| :=
  C2_matched_diff_exact (.ok exA) (.ok exB) exRes ex_compare
    ⟨.str "100", .num 5, .num 5, .num 0⟩ (by decide) 5 5 rfl rfl

/-- **C3, counterexample.**  The claim says the `diff` field of unmatched
rows is explicitly unset/null, never computed against a missing value and
never the sentinel NaN.  On the scenario, both unmatched rows carry
`weight_diff = NaN`, and the element computation that produced it is
exactly the subtraction against the NaN fill (`3 - NaN` evaluated by the
column operation). -/
theorem C3_counterexample :
    compareBody (.ok exA) (.ok exB) = .ok exRes ∧
    exRes.mismatching.map ORow.diff = [PdVal.nan, PdVal.nan] ∧
    subAbs (.num 3) .nan = .ok .nan ∧ subAbs .nan (.num 1) = .ok .nan :=
  ⟨ex_compare, by decide, rfl, rfl⟩

/-- **C3, amended.**  For every row of the unmatched partition, the diff
column is still computed — by the same element-wise subtraction, with the
NaN fill standing in for the missing side — and its value is the numeric
sentinel NaN (not an absent field). -/
theorem C3_unmatched_diff_nan (r1 r2 : Except PyErr RawTable)
    (res : CmpResult) (h : compareBody r1 r2 = .ok res) (r : ORow)
    (hr : r ∈ res.mismatching) :
    r.diff = .nan ∧ subAbs r.w1 r.w2 = .ok .nan ∧
      (r.w1 = .nan ∨ r.w2 = .nan) := by
  obtain ⟨t1, t2, d1, d2, dm, _, _, _, _, hd, hres⟩ := compareBody_ok h
  rw [hres] at hr
  simp only at hr
  obtain ⟨d, hdmem, hdr⟩ := List.mem_map.mp hr
  have herase := addDiff_ok hd
  have hsub := herase.2 d (List.mem_filter.mp hdmem).1
  have hdnot : ¬ d.pres = .both := by
    simpa using (List.mem_filter.mp hdmem).2
  have hmm : DRow.erase d ∈ merge d1 d2 := by
    rw [← herase.1]
    exact List.mem_map_of_mem DRow.erase (List.mem_filter.mp hdmem).1
  have hw1 : d.w1 = r.w1 := by rw [← hdr]; rfl
  have hw2 : d.w2 = r.w2 := by rw [← hdr]; rfl
  have hdiff : d.diff = r.diff := by rw [← hdr]; rfl
  have hnan : r.w1 = .nan ∨ r.w2 = .nan := by
    cases hp : (DRow.erase d).pres with
    | both => exact absurd hp hdnot
    | leftOnly =>
        obtain ⟨_, hw, _⟩ := merge_leftOnly_src d1 d2 (DRow.erase d) hmm hp
        exact Or.inr (by rw [← hw2]; exact hw)
    | rightOnly =>
        obtain ⟨_, hw, _⟩ := merge_rightOnly_src d1 d2 (DRow.erase d) hmm hp
        exact Or.inl (by rw [← hw1]; exact hw)
  have hok : subAbs r.w1 r.w2 = .ok .nan := by
    rcases hnan with hn | hn
    · rw [hn]
      cases hv : r.w2 with
      | num q => rfl
      | nan => rfl
      | str s =>
          rw [hw1, hw2, hn, hv] at hsub
          cases hsub
    · rw [hn]
      cases hv : r.w1 with
      | num q => rfl
      | nan => rfl
      | str s =>
          rw [hw1, hw2, hn, hv] at hsub
          cases hsub
  refine ⟨?_, hok, hnan⟩
  rw [hw1, hw2, hok] at hsub
  rw [← hdiff]
  injection hsub with h'
  rw [h']

/-- Witness for the amended C3: the unmatched row for key 200 of the
scenario. -/
theorem C3_unmatched_diff_nan_witness :
    (⟨.str "200", .num 3, .nan, .nan⟩ : ORow).diff = .nan ∧
    subAbs (ORow.w1 ⟨.str "200", .num 3, .nan, .nan⟩)
      (ORow.w2 ⟨.str "200", .num 3, .nan, .nan⟩) = .ok .nan ∧
    ((⟨.str "200", .num 3, .nan, .nan⟩ : ORow).w1 = .nan ∨
      (⟨.str "200", .num 3, .nan, .nan⟩ : ORow).w2 = .nan) :=
  C3_unmatched_diff_nan (.ok exA) (.ok exB) exRes ex_compare
    ⟨.str "200", .num 3, .nan, .nan⟩ (by decide)

/-- A table whose only column is `weight`: the key column is missing. -/
def noAwb : RawTable := ⟨["weight"], [[.num 1]]⟩

/-- A table whose only column is `awb number`: the value column is
missing. -/
def noWeight : RawTable := ⟨["awb number"], [[.num 1]]⟩

/-- **C4, counterexample.**  The claim says the error message names the
specific missing column(s).  A table missing only the key column and a
table missing only the value column produce the identical error, whose
message always lists both columns joined by "and/or" — so the message
cannot identify which column is missing. -/
theorem C4_counterexample :
    parseTable 1 noAwb = .error (.valueError
      "File 1 is missing required columns: 'AWB number' and/or 'Weight'.") ∧
    parseTable 1 noWeight = .error (.valueError
      "File 1 is missing required columns: 'AWB number' and/or 'Weight'.") ∧
    parseTable 1 noAwb = parseTable 1 noWeight := by decide

/-- **C4, amended.**  `parse` accepts a table exactly when both required
column names occur among the trimmed-and-lowercased column names (extra
unrelated columns are irrelevant); when either is absent it fails with the
file's fixed `ValueError`, whose message names the file but always lists
both required columns ("and/or") instead of the specific missing ones. -/
theorem C4_schema_validation (i : Nat) (t : RawTable) :
    ((∃ d, parseTable i t = .ok d) ↔
      ("awb number" ∈ t.cols.map normCol ∧ "weight" ∈ t.cols.map normCol)) ∧
    (("awb number" ∉ t.cols.map normCol ∨ "weight" ∉ t.cols.map normCol) →
      parseTable i t = .error (.valueError (missingMsg i))) := by
  constructor
  · constructor
    · intro ⟨d, hd⟩
      by_contra hc
      rw [parseTable] at hd
      rw [if_neg hc] at hd
      cases hd
    · intro hc
      rw [parseTable]
      rw [if_pos hc]
      exact ⟨_, rfl⟩
  · intro hc
    rw [parseTable]
    rw [if_neg (by
      intro ⟨h1, h2⟩
      rcases hc with hc | hc
      · exact hc h1
      · exact hc h2)]

/-- Witness for the amended C4: a table with only the key column fails with
the fixed message for file 1. -/
theorem C4_schema_validation_witness :
    parseTable 1 noWeight = .error (.valueError (missingMsg 1)) :=
  (C4_schema_validation 1 noWeight).2 (Or.inr (by decide))

/-- Did the computation succeed? (`True` exactly on `Except.ok`.) -/
def exIsOk {e a : Type} : Except e a → Bool
  | .ok _ => true
  | .error _ => false

/-- The parse stage of one file: `pd.read_excel` (which may raise) followed
by column normalization, validation and projection — lines 43–58 of
`app.py` restricted to one file. -/
def parseStage (i : Nat) (r : Except PyErr RawTable) :
    Except PyErr (List Rec) := do
  let t ← r
  parseTable i t

/-- **C5.**  If the parse stage of either input file fails (unreadable file
or schema error), the whole `try` body fails — so reconciliation produces
no result — and the processed-files store is left exactly as it was: zero
output artifacts are produced, never just one of the two. -/
theorem C5_parse_failure_atomic (store : Store) (r1 r2 : Except PyErr RawTable)
    (h : exIsOk (parseStage 1 r1) = false ∨ exIsOk (parseStage 2 r2) = false) :
    compare_excel_files store r1 r2 = (none, store) ∧
    exIsOk (compareBody r1 r2) = false := by
  cases hcb : compareBody r1 r2 with
  | ok res =>
      exfalso
      obtain ⟨t1, t2, d1, d2, dm, ht1, ht2, hp1, hp2, _, _⟩ := compareBody_ok hcb
      rcases h with h | h
      · rw [ht1] at h
        have : parseStage 1 (.ok t1) = .ok d1 := hp1
        rw [this] at h
        cases h
      · rw [ht2] at h
        have : parseStage 2 (.ok t2) = .ok d2 := hp2
        rw [this] at h
        cases h
  | error e =>
      constructor
      · rw [compare_excel_files, hcb]
      · rfl

/-- Witness for C5: an unreadable first file leaves the store untouched. -/
theorem C5_parse_failure_atomic_witness :
    compare_excel_files ([] : Store) (.error (.unreadable 1)) (.ok exB) =
      (none, ([] : Store)) ∧
    exIsOk (compareBody (.error (.unreadable 1)) (.ok exB)) = false :=
  C5_parse_failure_atomic [] (.error (.unreadable 1)) (.ok exB)
    (Or.inl (by decide))

/-- A table whose weight cell is the non-numeric string `"abc"`. -/
def badWeight : RawTable :=
  ⟨["awb number", "weight"], [[.str "100", .str "abc"]]⟩

/-- The dataset parsed from `badWeight`. -/
def badWeightd : List Rec := [⟨.str "100", .str "abc"⟩]

/-- Any element-wise subtraction with a string on the left raises
`TypeError`. -/
theorem subAbs_str_left (s : String) (y : PdVal) :
    subAbs (.str s) y = .error .typeError := by
  cases y <;> rfl

/-- Any element-wise subtraction with a string on the right raises
`TypeError`. -/
theorem subAbs_str_right (x : PdVal) (s : String) :
    subAbs x (.str s) = .error .typeError := by
  cases x <;> rfl

/-- **C6, counterexample.**  The claim says a non-numeric weight cell makes
`parse` fail with a `ParseError` and is never carried into the join.  In
fact parse succeeds on such a table, and the offending cell reaches the
merged frame (here paired with B's matching row). -/
theorem C6_counterexample :
    parseTable 1 badWeight = .ok badWeightd ∧
    (⟨.str "100", .str "abc", .num 5, .both⟩ : MRow) ∈ merge badWeightd exBd := by
  refine ⟨by decide, by decide⟩

/-- **C6, amended.**  A non-numeric weight cell passes `parse` and enters
the outer join; the failure only happens in the diff-column computation,
which raises `TypeError` — so the whole comparison still fails with no
per-row skip and no output artifacts (the store is untouched). -/
theorem C6_noncoercible_fatal (store : Store) (t1 t2 : RawTable)
    (d1 d2 : List Rec)
    (h1 : parseTable 1 t1 = .ok d1) (h2 : parseTable 2 t2 = .ok d2)
    (hbad : (∃ r ∈ d1, ∃ s, r.wt = .str s) ∨ (∃ r ∈ d2, ∃ s, r.wt = .str s)) :
    compare_excel_files store (.ok t1) (.ok t2) = (none, store) := by
  have herr : ∃ e, addDiff (merge d1 d2) = .error e := by
    rcases hbad with ⟨r, hr, s, hs⟩ | ⟨r, hr, s, hs⟩
    · obtain ⟨m, hm, hw⟩ := merge_left_total d1 d2 r hr
      exact addDiff_error hm (by rw [hw, hs, subAbs_str_left])
    · obtain ⟨m, hm, hw⟩ := merge_right_total d1 d2 r hr
      exact addDiff_error hm (by rw [hw, hs, subAbs_str_right])
  obtain ⟨e, he⟩ := herr
  have hcb : compareBody (.ok t1) (.ok t2) = .error e := by
    simp only [compareBody, bind]
    rw [exbind_ok, exbind_ok, h1, exbind_ok, h2, exbind_ok, he, exbind_err]
  rw [compare_excel_files, hcb]

/-- Witness for the amended C6: comparing `badWeight` with the scenario's
file 2 fails wholly and writes nothing. -/
theorem C6_noncoercible_fatal_witness :
    compare_excel_files ([] : Store) (.ok badWeight) (.ok exB) =
      (none, ([] : Store)) :=
  C6_noncoercible_fatal [] badWeight exB badWeightd exBd (by decide)
    exB_parses (Or.inl ⟨⟨.str "100", .str "abc"⟩, by decide, "abc", rfl⟩)

/-- **C7.**  Duplicate keys follow relational outer-join cardinality: a key
occurring twice in A and once in B yields exactly two merged rows for that
key, each one a `both` row pairing one A-row with a B-row of that key (B's
single row). -/
theorem C7_duplicate_cross_product (A B : List Rec) (k : PdVal)
    (hA : countKey A k = 2) (hB : countKey B k = 1) :
    (merge A B).countP (fun m => m.key = k) = 2 ∧
    ∀ m ∈ merge A B, m.key = k → m.pres = .both ∧
      ∃ a ∈ A, ∃ b ∈ B, a.key = k ∧ b.key = k ∧
        m.w1 = a.wt ∧ m.w2 = b.wt := by
  constructor
  · rw [countKey_merge]
    simp [joinCount, hA, hB]
  · intro m hm hk
    have hpres : m.pres = .both := by
      cases hp : m.pres with
      | both => rfl
      | leftOnly =>
          obtain ⟨_, _, hnb⟩ := merge_leftOnly_src A B m hm hp
          obtain ⟨b, hb, hbk⟩ := List.countP_pos_iff.mp
            (show 0 < countKey B k by omega)
          exact absurd (by rw [hk]; simpa using hbk : b.key = m.key) (hnb b hb)
      | rightOnly =>
          obtain ⟨_, _, hna⟩ := merge_rightOnly_src A B m hm hp
          obtain ⟨a, ha, hak⟩ := List.countP_pos_iff.mp
            (show 0 < countKey A k by omega)
          exact absurd (by rw [hk]; simpa using hak : a.key = m.key) (hna a ha)
    refine ⟨hpres, ?_⟩
    obtain ⟨a, ha, b, hb, hak, hbk, hw1, hw2⟩ := merge_both_src A B m hm hpres
    exact ⟨a, ha, b, hb, by rw [hak, hk], by rw [hbk, hk], hw1, hw2⟩

/-- A dataset holding key 100 twice with different weights. -/
def dupA : List Rec := [⟨.str "100", .num 5⟩, ⟨.str "100", .num 7⟩]

/-- A dataset holding key 100 once. -/
def dupB : List Rec := [⟨.str "100", .num 2⟩]

/-- Witness for C7: the duplicate-key scenario of the specification. -/
theorem C7_duplicate_cross_product_witness :
    (merge dupA dupB).countP (fun m => m.key = .str "100") = 2 ∧
    ∀ m ∈ merge dupA dupB, m.key = .str "100" → m.pres = .both ∧
      ∃ a ∈ dupA, ∃ b ∈ dupB, a.key = .str "100" ∧ b.key = .str "100" ∧
        m.w1 = a.wt ∧ m.w2 = b.wt :=
  C7_duplicate_cross_product dupA dupB (.str "100") (by decide) (by decide)

/-- **C8, counterexample.**  The claim says requesting an artifact before
any comparison ran (or an unknown name) yields a `NotFoundError`.  On an
empty processed directory, requesting the known artifact name hits
`send_file` on a nonexistent path: the uncaught `FileNotFoundError`
surfaces as a generic internal error, which is not the structured
not-found response. -/
theorem C8_counterexample :
    download_file [] "matching_awb_numbers.xlsx" = .internalError ∧
    download_file [] "nosuch.xlsx" = .internalError ∧
    HttpResp.internalError ≠ HttpResp.notFound := by decide

/-- **C8, amended.**  Requesting any artifact whose resolved path does not
exist in the processed directory makes `send_file` raise an uncaught
`FileNotFoundError`, surfaced as a generic internal error (HTTP 500) — not
as a structured `NotFoundError`. -/
theorem C8_missing_artifact_internal_error (files : List String)
    (filename : String)
    (h : resolvePath (pathJoin PROCESSED_FOLDER filename) ∉ files) :
    download_file files filename = .internalError := by
  rw [download_file]
  simp only [if_neg h]

/-- Witness for the amended C8: the other artifact name on a fresh
store. -/
theorem C8_missing_artifact_internal_error_witness :
    download_file [] "mismatching_awb_numbers.xlsx" = .internalError :=
  C8_missing_artifact_internal_error [] "mismatching_awb_numbers.xlsx"
    (by decide)

/-- First run of a pair of comparisons (disjoint keys). -/
def runA1 : RawTable := ⟨["awb number", "weight"], [[.str "1", .num 5]]⟩

/-- Second input of the first run. -/
def runB1 : RawTable := ⟨["awb number", "weight"], [[.str "2", .num 6]]⟩

/-- First input of the second run. -/
def runA2 : RawTable := ⟨["awb number", "weight"], [[.str "3", .num 7]]⟩

/-- Second input of the second run. -/
def runB2 : RawTable := ⟨["awb number", "weight"], [[.str "4", .num 8]]⟩

/-- The mismatching rows written by the first run. -/
def run1Rows : List ORow :=
  [⟨.str "1", .num 5, .nan, .nan⟩, ⟨.str "2", .nan, .num 6, .nan⟩]

/-- The mismatching rows written by the second run. -/
def run2Rows : List ORow :=
  [⟨.str "3", .num 7, .nan, .nan⟩, ⟨.str "4", .nan, .num 8, .nan⟩]

/-- **C9, counterexample.**  The claim says one invocation's artifacts are
never overwritten or observed by a different invocation.  Running two
different comparisons in sequence, the second run stores its mismatching
rows under the very path the first run used: after the second run the
shared `processed/mismatching_awb_numbers.xlsx` holds the second run's
rows, and the first run's rows are gone. -/
theorem C9_counterexample :
    storeRead ((compare_excel_files ([] : Store)
        (.ok runA1) (.ok runB1)).2) mismatchingPath = some run1Rows ∧
    storeRead ((compare_excel_files
        ((compare_excel_files ([] : Store) (.ok runA1) (.ok runB1)).2)
        (.ok runA2) (.ok runB2)).2) mismatchingPath = some run2Rows ∧
    run1Rows ≠ run2Rows := by decide

/-- **C9, amended.**  Artifact storage is process-wide, not
request-scoped: every successful invocation returns the same two fixed
artifact paths under the shared `processed` directory, and a successful
run replaces whatever a previous run stored there (the store update writes
those two fixed paths). -/
theorem C9_shared_artifact_paths (r1 r2 r1' r2' : Except PyErr RawTable)
    (res res' : CmpResult) (store : Store)
    (h : compareBody r1 r2 = .ok res) (h' : compareBody r1' r2' = .ok res') :
    res.matchingFile = matchingPath ∧
    res.mismatchingFile = mismatchingPath ∧
    res.matchingFile = res'.matchingFile ∧
    res.mismatchingFile = res'.mismatchingFile ∧
    compare_excel_files store r1 r2 =
      (some res, storeWrite (storeWrite store matchingPath res.matching)
        mismatchingPath res.mismatching) := by
  obtain ⟨t1, t2, d1, d2, dm, _, _, _, _, _, hres⟩ := compareBody_ok h
  obtain ⟨t1', t2', d1', d2', dm', _, _, _, _, _, hres'⟩ := compareBody_ok h'
  have hm : res.matchingFile = matchingPath := by rw [hres]
  have hmm : res.mismatchingFile = mismatchingPath := by rw [hres]
  have hm' : res'.matchingFile = matchingPath := by rw [hres']
  have hmm' : res'.mismatchingFile = mismatchingPath := by rw [hres']
  refine ⟨hm, hmm, by rw [hm, hm'], by rw [hmm, hmm'], ?_⟩
  have hrun : compare_excel_files store r1 r2 =
      (some res, storeWrite (storeWrite store res.matchingFile res.matching)
        res.mismatchingFile res.mismatching) := by
    rw [compare_excel_files, h]
  rw [hrun, hm, hmm]

/-- Witness for the amended C9: the scenario run and the disjoint-key run
both write to the two fixed paths. -/
theorem C9_shared_artifact_paths_witness :
    exRes.matchingFile = matchingPath ∧
    exRes.mismatchingFile = mismatchingPath ∧
    exRes.matchingFile = CmpResult.matchingFile
      ⟨[], run1Rows, matchingPath, mismatchingPath⟩ ∧
    exRes.mismatchingFile = CmpResult.mismatchingFile
      ⟨[], run1Rows, matchingPath, mismatchingPath⟩ ∧
    compare_excel_files ([] : Store) (.ok exA) (.ok exB) =
      (some exRes, storeWrite (storeWrite ([] : Store) matchingPath
        exRes.matching) mismatchingPath exRes.mismatching) :=
  C9_shared_artifact_paths (.ok exA) (.ok exB) (.ok runA1) (.ok runB1)
    exRes ⟨[], run1Rows, matchingPath, mismatchingPath⟩ [] ex_compare
    (by decide)

/-- **C10.**  The download operation serves whatever filename the caller
supplies, joined directly under the processed directory: any existing file
there is served whether or not it is one of the two artifact names, and
`..` components are not rejected, so a crafted filename reaches a file
outside the processed directory (here the application source itself). -/
theorem C10_download_unrestricted :
    (∀ files filename,
      resolvePath (pathJoin PROCESSED_FOLDER filename) ∈ files →
        download_file files filename =
          .file (resolvePath (pathJoin PROCESSED_FOLDER filename))) ∧
    download_file ["processed/secret.txt"] "secret.txt" =
      .file "processed/secret.txt" ∧
    "processed/secret.txt" ≠ matchingPath ∧
    "processed/secret.txt" ≠ mismatchingPath ∧
    download_file ["app.py"] "../app.py" = .file "app.py" ∧
    resolvePath (pathJoin PROCESSED_FOLDER "../app.py") = "app.py" := by
  refine ⟨?_, by decide, by decide, by decide, by decide, by decide⟩
  intro files filename h
  rw [download_file]
  simp only [if_pos h]

/-- Witness for C10: a stray file in the processed directory is served
under its own name. -/
theorem C10_download_unrestricted_witness :
    download_file ["processed/x.xlsx"] "x.xlsx" = .file "processed/x.xlsx" :=
  C10_download_unrestricted.1 ["processed/x.xlsx"] "x.xlsx" (by decide)
